import Mathlib

/-!
Verification of the arithmetic utility module of a todo-app backend
(`todo/utils.py`): the `Calculator` class, the expression evaluator
`calculate_expression`, and the display formatter
`format_calculation_result`.

The Python code evaluates the (whitespace-stripped, character-validated,
caret-translated) expression string with the host interpreter's `eval`,
with `__builtins__` emptied.  Because the validated character set is
`0123456789+-*/.()^`, the only host-language expressions reachable are
numeric literals, the operators `+ - * / // **`, unary `+`/`-`,
parenthesised groups, empty tuples `()`, and call expressions such as
`5(3)` (which fail at run time with a `TypeError`).  This file embeds
exactly that fragment: a tokenizer, a recursive-descent parser following
the host grammar, and an evaluator over the reachable value domain.

Modelling conventions:
* Host floats are modelled as exact rationals (`ℚ`).  All arithmetic the
  specification exercises is exact in double precision, so the idealisation
  is faithful on every input any theorem below touches.
* A power with a non-integral exponent generally produces an irrational
  float; such values are modelled by the opaque value `PyVal.irr`
  ("some untracked nonzero real"), and a negative base with a
  non-integral exponent produces `PyVal.cplx` (the host returns a complex
  number there).  No claim depends on the numeric content of such values.
* Host exceptions are an inductive `PyExc`; `str(e)` is `PyExc.msg`.
-/

/-!
Exact rational arithmetic.  The `Rat` operations `Rat.add`, `Rat.mul`,
`Rat.inv`, … are `@[irreducible]` in the ambient library, which blocks
kernel evaluation of concrete expressions; the operations below compute
the same rationals through the reducible constructor `Rat.divInt`.  The
`…_eq` lemmas check them against the library operations.
-/

/-- Rational addition via `Rat.divInt` (kernel-computable). -/
def qadd (a b : ℚ) : ℚ := Rat.divInt (a.num * b.den + b.num * a.den) (a.den * b.den)

/-- Rational subtraction via `Rat.divInt` (kernel-computable). -/
def qsub (a b : ℚ) : ℚ := Rat.divInt (a.num * b.den - b.num * a.den) (a.den * b.den)

/-- Rational multiplication via `Rat.divInt` (kernel-computable). -/
def qmul (a b : ℚ) : ℚ := Rat.divInt (a.num * b.num) (a.den * b.den)

/-- Rational division via `Rat.divInt` (kernel-computable); division by
zero yields `0`, but every use below is guarded by a zero test. -/
def qdiv (a b : ℚ) : ℚ := Rat.divInt (a.num * b.den) (a.den * b.num)

/-- Rational power by a natural exponent via `Rat.divInt`
(kernel-computable). -/
def qpowN (a : ℚ) (k : ℕ) : ℚ := Rat.divInt (a.num ^ k) ((a.den : ℤ) ^ k)

theorem qadd_eq (a b : ℚ) : qadd a b = a + b := by
  rw [qadd, Rat.divInt_eq_div]
  conv_rhs => rw [← Rat.num_div_den a, ← Rat.num_div_den b]
  have ha : ((a.den : ℚ)) ≠ 0 := by exact_mod_cast a.den_nz
  have hb : ((b.den : ℚ)) ≠ 0 := by exact_mod_cast b.den_nz
  field_simp

theorem qsub_eq (a b : ℚ) : qsub a b = a - b := by
  rw [qsub, Rat.divInt_eq_div]
  conv_rhs => rw [← Rat.num_div_den a, ← Rat.num_div_den b]
  have ha : ((a.den : ℚ)) ≠ 0 := by exact_mod_cast a.den_nz
  have hb : ((b.den : ℚ)) ≠ 0 := by exact_mod_cast b.den_nz
  field_simp
  ring

theorem qmul_eq (a b : ℚ) : qmul a b = a * b := by
  rw [qmul, Rat.divInt_eq_div]
  conv_rhs => rw [← Rat.num_div_den a, ← Rat.num_div_den b]
  have ha : ((a.den : ℚ)) ≠ 0 := by exact_mod_cast a.den_nz
  have hb : ((b.den : ℚ)) ≠ 0 := by exact_mod_cast b.den_nz
  field_simp

theorem qdiv_eq (a b : ℚ) : qdiv a b = a / b := by
  rw [qdiv, Rat.divInt_eq_div]
  by_cases hb0 : b = 0
  · subst hb0
    simp
  · conv_rhs => rw [← Rat.num_div_den a, ← Rat.num_div_den b]
    have ha : ((a.den : ℚ)) ≠ 0 := by exact_mod_cast a.den_nz
    have hb : ((b.den : ℚ)) ≠ 0 := by exact_mod_cast b.den_nz
    have hbn : ((b.num : ℚ)) ≠ 0 := by
      exact_mod_cast Rat.num_ne_zero.mpr hb0
    field_simp

theorem qpowN_eq (a : ℚ) (k : ℕ) : qpowN a k = a ^ k := by
  rw [qpowN, Rat.divInt_eq_div]
  conv_rhs => rw [← Rat.num_div_den a]
  push_cast
  rw [div_pow]

/-- The values reachable by evaluating a validated expression string:
machine integers (unbounded in the host language), floats (modelled as
exact rationals), untracked irrational floats, complex numbers (from a
negative base under a fractional exponent), and the empty tuple `()`. -/
inductive PyVal where
  | int (n : ℤ)
  | float (q : ℚ)
  | irr
  | cplx
  | tup
deriving DecidableEq, Repr

/-- Host exceptions: `ValueError`, `ZeroDivisionError`, `SyntaxError`,
`TypeError` — each carrying its `str(e)` message. -/
inductive PyExc where
  | valErr (m : String)
  | zdivErr (m : String)
  | synErr (m : String)
  | typeErr (m : String)
deriving DecidableEq, Repr

/-- `str(e)` of a host exception. -/
def PyExc.msg : PyExc → String
  | .valErr m => m
  | .zdivErr m => m
  | .synErr m => m
  | .typeErr m => m

/-- The host type name of a value, as it appears in error messages. -/
def PyVal.typeName : PyVal → String
  | .int _ => "int"
  | .float _ => "float"
  | .irr => "float"
  | .cplx => "complex"
  | .tup => "tuple"

/-- `True` exactly for values that are `int` or `float` with tracked
numeric content (the only values the specification's claims range over). -/
def PyVal.realNum : PyVal → Bool
  | .int _ => true
  | .float _ => true
  | _ => false

/-- The rational content of a tracked number (`0` otherwise; only applied
under `realNum`). -/
def PyVal.toRat : PyVal → ℚ
  | .int n => (n : ℚ)
  | .float q => q
  | _ => 0

/-- Host `x == 0` on a value: true for `0` and `0.0`; tuples and the
untracked values compare unequal to `0`. -/
def pyEq0 : PyVal → Bool
  | .int n => n = 0
  | .float q => q = 0
  | _ => false

/-- Error message for an unsupported binary operand pair. -/
def binMsg (op : String) (a b : PyVal) : String :=
  "unsupported operand type(s) for " ++ op ++ ": '" ++ a.typeName ++
    "' and '" ++ b.typeName ++ "'"

/-- Host `+` on reachable values: numeric addition with int/float
promotion; `() + ()` is tuple concatenation; any other mix with a tuple
is a `TypeError`. -/
def pyAdd : PyVal → PyVal → Except PyExc PyVal
  | .tup, .tup => .ok .tup
  | .tup, b => .error (.typeErr (binMsg "+" .tup b))
  | a, .tup => .error (.typeErr (binMsg "+" a .tup))
  | .cplx, _ => .ok .cplx
  | _, .cplx => .ok .cplx
  | .irr, _ => .ok .irr
  | _, .irr => .ok .irr
  | .int x, .int y => .ok (.int (x + y))
  | .int x, .float y => .ok (.float (qadd (x : ℚ) y))
  | .float x, .int y => .ok (.float (qadd x (y : ℚ)))
  | .float x, .float y => .ok (.float (qadd x y))

/-- Host `-` on reachable values (tuples do not support `-`). -/
def pySub : PyVal → PyVal → Except PyExc PyVal
  | .tup, b => .error (.typeErr (binMsg "-" .tup b))
  | a, .tup => .error (.typeErr (binMsg "-" a .tup))
  | .cplx, _ => .ok .cplx
  | _, .cplx => .ok .cplx
  | .irr, _ => .ok .irr
  | _, .irr => .ok .irr
  | .int x, .int y => .ok (.int (x - y))
  | .int x, .float y => .ok (.float (qsub (x : ℚ) y))
  | .float x, .int y => .ok (.float (qsub x (y : ℚ)))
  | .float x, .float y => .ok (.float (qsub x y))

/-- Host `*` on reachable values: numeric multiplication; a tuple may be
repeated by an `int` (the empty tuple stays empty); other tuple mixes
are a `TypeError`. -/
def pyMul : PyVal → PyVal → Except PyExc PyVal
  | .tup, .int _ => .ok .tup
  | .int _, .tup => .ok .tup
  | .tup, b => .error (.typeErr ("can't multiply sequence by non-int of type '" ++ b.typeName ++ "'"))
  | a, .tup => .error (.typeErr ("can't multiply sequence by non-int of type '" ++ a.typeName ++ "'"))
  | .cplx, _ => .ok .cplx
  | _, .cplx => .ok .cplx
  | .irr, _ => .ok .irr
  | _, .irr => .ok .irr
  | .int x, .int y => .ok (.int (x * y))
  | .int x, .float y => .ok (.float (qmul (x : ℚ) y))
  | .float x, .int y => .ok (.float (qmul x (y : ℚ)))
  | .float x, .float y => .ok (.float (qmul x y))

/-- Host true division `/`: always a float on numbers; raises
`ZeroDivisionError` on a zero divisor; tuples do not support `/`. -/
def pyDiv : PyVal → PyVal → Except PyExc PyVal
  | .tup, b => .error (.typeErr (binMsg "/" .tup b))
  | a, .tup => .error (.typeErr (binMsg "/" a .tup))
  | a, b =>
    if pyEq0 b then .error (.zdivErr "division by zero")
    else match a, b with
      | .cplx, _ => .ok .cplx
      | _, .cplx => .ok .cplx
      | .irr, _ => .ok .irr
      | _, .irr => .ok .irr
      | .int x, .int y => .ok (.float (Rat.divInt x y))
      | .int x, .float y => .ok (.float (qdiv (x : ℚ) y))
      | .float x, .int y => .ok (.float (qdiv x (y : ℚ)))
      | .float x, .float y => .ok (.float (qdiv x y))
      | _, _ => .error (.typeErr "unreachable")

/-- Host floor division `//`: `int // int` is an `int`, otherwise a
float; floor semantics; zero divisor raises; complex numbers and tuples
do not support `//`. -/
def pyFloorDiv : PyVal → PyVal → Except PyExc PyVal
  | .tup, b => .error (.typeErr (binMsg "//" .tup b))
  | a, .tup => .error (.typeErr (binMsg "//" a .tup))
  | .cplx, b => .error (.typeErr (binMsg "//" .cplx b))
  | a, .cplx => .error (.typeErr (binMsg "//" a .cplx))
  | .irr, _ => .ok .irr
  | _, .irr => .ok .irr
  | a, b =>
    if pyEq0 b then .error (.zdivErr "integer division or modulo by zero")
    else match a, b with
      | .int x, .int y => .ok (.int (Int.fdiv x y))
      | .int x, .float y => .ok (.float ((qdiv (x : ℚ) y).floor : ℤ))
      | .float x, .int y => .ok (.float ((qdiv x (y : ℚ)).floor : ℤ))
      | .float x, .float y => .ok (.float ((qdiv x y).floor : ℤ))
      | _, _ => .error (.typeErr "unreachable")

/-- Host `%`: remainder with the sign of the divisor
(`a - b * floor(a / b)`); `int % int` is an `int`, otherwise a float;
zero divisor raises; complex numbers and tuples do not support `%`. -/
def pyMod : PyVal → PyVal → Except PyExc PyVal
  | .tup, b => .error (.typeErr (binMsg "%" .tup b))
  | a, .tup => .error (.typeErr (binMsg "%" a .tup))
  | .cplx, b => .error (.typeErr (binMsg "%" .cplx b))
  | a, .cplx => .error (.typeErr (binMsg "%" a .cplx))
  | .irr, _ => .ok .irr
  | _, .irr => .ok .irr
  | a, b =>
    if pyEq0 b then .error (.zdivErr "integer division or modulo by zero")
    else match a, b with
      | .int x, .int y => .ok (.int (Int.fmod x y))
      | .int x, .float y => .ok (.float (qsub (x : ℚ) (qmul y ((qdiv (x : ℚ) y).floor : ℤ))))
      | .float x, .int y => .ok (.float (qsub x (qmul (y : ℚ) ((qdiv x (y : ℚ)).floor : ℤ))))
      | .float x, .float y => .ok (.float (qsub x (qmul y ((qdiv x y).floor : ℤ))))
      | _, _ => .error (.typeErr "unreachable")

/-- Host float power `x ** e` where `e` is float-valued: an integral
exponent stays exact; a fractional exponent over a negative base gives a
complex, over zero gives `0.0` (or raises for a negative exponent), over
a positive base gives an untracked irrational. -/
def realPow (x e : ℚ) : Except PyExc PyVal :=
  if e.den = 1 then
    if 0 ≤ e.num then .ok (.float (qpowN x e.num.toNat))
    else if x = 0 then .error (.zdivErr "0.0 cannot be raised to a negative power")
    else .ok (.float (qdiv 1 (qpowN x (-e.num).toNat)))
  else
    if x < 0 then .ok .cplx
    else if x = 0 then
      if 0 < e then .ok (.float 0)
      else .error (.zdivErr "0.0 cannot be raised to a negative power")
    else .ok .irr

/-- Host `**` on reachable values. `int ** int` with a nonnegative
exponent is an `int`; a negative exponent gives a float (raising on base
`0`); any float operand goes through `realPow`; powers touching the
untracked values stay untracked; tuples do not support `**`. -/
def pyPow : PyVal → PyVal → Except PyExc PyVal
  | .tup, b => .error (.typeErr (binMsg "** or pow()" .tup b))
  | a, .tup => .error (.typeErr (binMsg "** or pow()" a .tup))
  | .cplx, _ => .ok .cplx
  | _, .cplx => .ok .cplx
  | .irr, _ => .ok .irr
  | _, .irr => .ok .irr
  | .int x, .int y =>
    if 0 ≤ y then .ok (.int (x ^ y.toNat))
    else if x = 0 then .error (.zdivErr "0.0 cannot be raised to a negative power")
    else .ok (.float (qdiv 1 (qpowN (x : ℚ) (-y).toNat)))
  | .int x, .float e => realPow (x : ℚ) e
  | .float x, .int y =>
    if 0 ≤ y then .ok (.float (qpowN x y.toNat))
    else if x = 0 then .error (.zdivErr "0.0 cannot be raised to a negative power")
    else .ok (.float (qdiv 1 (qpowN x (-y).toNat)))
  | .float x, .float e => realPow x e

/-- Host unary `-`. -/
def pyNeg : PyVal → Except PyExc PyVal
  | .int n => .ok (.int (-n))
  | .float q => .ok (.float (-q))
  | .irr => .ok .irr
  | .cplx => .ok .cplx
  | .tup => .error (.typeErr "bad operand type for unary -: 'tuple'")

/-- Host unary `+`. -/
def pyPos : PyVal → Except PyExc PyVal
  | .int n => .ok (.int n)
  | .float q => .ok (.float q)
  | .irr => .ok .irr
  | .cplx => .ok .cplx
  | .tup => .error (.typeErr "bad operand type for unary +: 'tuple'")

/-- The tokens of the reachable fragment of the host grammar. -/
inductive Tok where
  | int (n : ℕ)
  | flt (q : ℚ)
  | plus
  | minus
  | star
  | slash
  | dstar
  | dslash
  | lparen
  | rparen
deriving DecidableEq, Repr

/-- Numeric value of a digit string. -/
def natOf (l : List Char) : ℕ :=
  l.foldl (fun a c => a * 10 + (c.toNat - 48)) 0

/-- Fuelled tokenizer loop.  Longest-match lexing: `**` and `//` before
`*` and `/`; a number is `digits [. digits]` or `. digits`; a decimal
integer literal other than a run of zeros must not start with `0`
(host rule); a lone `.` or any character outside the fragment is a
`SyntaxError`.  Each step consumes at least one character, so fuel
`length + 1` never runs out. -/
def tokLoop : ℕ → List Char → Except PyExc (List Tok)
  | 0, _ => .error (.synErr "tokenizer fuel exhausted")
  | _ + 1, [] => .ok []
  | f + 1, c :: rest =>
    if c = '+' then do pure (Tok.plus :: (← tokLoop f rest))
    else if c = '-' then do pure (Tok.minus :: (← tokLoop f rest))
    else if c = '(' then do pure (Tok.lparen :: (← tokLoop f rest))
    else if c = ')' then do pure (Tok.rparen :: (← tokLoop f rest))
    else if c = '*' then
      match rest with
      | '*' :: r2 => do pure (Tok.dstar :: (← tokLoop f r2))
      | _ => do pure (Tok.star :: (← tokLoop f rest))
    else if c = '/' then
      match rest with
      | '/' :: r2 => do pure (Tok.dslash :: (← tokLoop f r2))
      | _ => do pure (Tok.slash :: (← tokLoop f rest))
    else if c.isDigit ∨ c = '.' then
      let intDs := (c :: rest).takeWhile Char.isDigit
      let r1 := (c :: rest).dropWhile Char.isDigit
      match r1 with
      | '.' :: r2 =>
        let fracDs := r2.takeWhile Char.isDigit
        let r3 := r2.dropWhile Char.isDigit
        if intDs = [] ∧ fracDs = [] then
          .error (.synErr "invalid syntax (<string>, line 1)")
        else do
          pure (Tok.flt (qadd (natOf intDs : ℚ) (mkRat (natOf fracDs) (10 ^ fracDs.length)))
            :: (← tokLoop f r3))
      | _ =>
        if intDs.length > 1 ∧ intDs.headD '0' = '0' ∧ intDs.any (fun d => d ≠ '0') then
          .error (.synErr "leading zeros in decimal integer literals are not permitted (<string>, line 1)")
        else do pure (Tok.int (natOf intDs) :: (← tokLoop f r1))
    else .error (.synErr "invalid character in expression")

/-- Tokenize a character list. -/
def tokenize (l : List Char) : Except PyExc (List Tok) :=
  tokLoop (l.length + 1) l

/-- Abstract syntax of the reachable fragment of host expressions:
numeric literals, the empty tuple `()`, unary and binary arithmetic,
and call expressions with zero or one argument (the only arities
writable without commas). -/
inductive PyExpr where
  | num (n : ℕ)
  | fnum (q : ℚ)
  | etup
  | neg (e : PyExpr)
  | pos (e : PyExpr)
  | add (a b : PyExpr)
  | sub (a b : PyExpr)
  | mul (a b : PyExpr)
  | div (a b : PyExpr)
  | fdiv (a b : PyExpr)
  | pow (a b : PyExpr)
  | call0 (f : PyExpr)
  | call1 (f a : PyExpr)
deriving DecidableEq, Repr

/-- Parser rules (the nonterminals of the host expression grammar
restricted to the reachable fragment, plus explicit loop states for the
left-associative levels and call trailers). -/
inductive PRule where
  | arith
  | term
  | factor
  | pw
  | prim
  | atom
  | arithL (e : PyExpr)
  | termL (e : PyExpr)
  | trailL (e : PyExpr)
deriving Repr

/-- Fuelled recursive-descent parser over the host grammar:
`arith := term (('+'|'-') term)*`, `term := factor (('*'|'/'|'//') factor)*`,
`factor := ('+'|'-') factor | power`, `power := primary ['**' factor]`
(right-associative, unary allowed on the right), `primary := atom
trailer*` with call trailers `(expr?)`, `atom := NUMBER | '()' | '(' arith ')'`. -/
def parseR : ℕ → PRule → List Tok → Except PyExc (PyExpr × List Tok)
  | 0, _, _ => .error (.synErr "too many nested parentheses (<string>, line 1)")
  | f + 1, .arith, ts => do
    let (e, ts1) ← parseR f .term ts
    parseR f (.arithL e) ts1
  | f + 1, .arithL e, Tok.plus :: ts => do
    let (r, ts1) ← parseR f .term ts
    parseR f (.arithL (.add e r)) ts1
  | f + 1, .arithL e, Tok.minus :: ts => do
    let (r, ts1) ← parseR f .term ts
    parseR f (.arithL (.sub e r)) ts1
  | _ + 1, .arithL e, ts => .ok (e, ts)
  | f + 1, .term, ts => do
    let (e, ts1) ← parseR f .factor ts
    parseR f (.termL e) ts1
  | f + 1, .termL e, Tok.star :: ts => do
    let (r, ts1) ← parseR f .factor ts
    parseR f (.termL (.mul e r)) ts1
  | f + 1, .termL e, Tok.slash :: ts => do
    let (r, ts1) ← parseR f .factor ts
    parseR f (.termL (.div e r)) ts1
  | f + 1, .termL e, Tok.dslash :: ts => do
    let (r, ts1) ← parseR f .factor ts
    parseR f (.termL (.fdiv e r)) ts1
  | _ + 1, .termL e, ts => .ok (e, ts)
  | f + 1, .factor, Tok.plus :: ts => do
    let (e, ts1) ← parseR f .factor ts
    .ok (.pos e, ts1)
  | f + 1, .factor, Tok.minus :: ts => do
    let (e, ts1) ← parseR f .factor ts
    .ok (.neg e, ts1)
  | f + 1, .factor, ts => parseR f .pw ts
  | f + 1, .pw, ts => do
    let (b, ts1) ← parseR f .prim ts
    match ts1 with
    | Tok.dstar :: ts2 => do
      let (e, ts3) ← parseR f .factor ts2
      .ok (.pow b e, ts3)
    | _ => .ok (b, ts1)
  | f + 1, .prim, ts => do
    let (a, ts1) ← parseR f .atom ts
    parseR f (.trailL a) ts1
  | f + 1, .trailL a, Tok.lparen :: Tok.rparen :: ts => parseR f (.trailL (.call0 a)) ts
  | f + 1, .trailL a, Tok.lparen :: ts => do
    let (e, ts1) ← parseR f .arith ts
    match ts1 with
    | Tok.rparen :: ts2 => parseR f (.trailL (.call1 a e)) ts2
    | _ => .error (.synErr "invalid syntax (<string>, line 1)")
  | _ + 1, .trailL a, ts => .ok (a, ts)
  | _ + 1, .atom, Tok.int n :: ts => .ok (.num n, ts)
  | _ + 1, .atom, Tok.flt q :: ts => .ok (.fnum q, ts)
  | _ + 1, .atom, Tok.lparen :: Tok.rparen :: ts => .ok (.etup, ts)
  | f + 1, .atom, Tok.lparen :: ts => do
    let (e, ts1) ← parseR f .arith ts
    match ts1 with
    | Tok.rparen :: ts2 => .ok (e, ts2)
    | _ => .error (.synErr "invalid syntax (<string>, line 1)")
  | _ + 1, .atom, _ => .error (.synErr "invalid syntax (<string>, line 1)")

/-- Parse a full token stream; leftover tokens are a `SyntaxError`. -/
def parseToplevel (ts : List Tok) : Except PyExc PyExpr := do
  let (e, rest) ← parseR (8 * ts.length + 8) .arith ts
  match rest with
  | [] => .ok e
  | _ => .error (.synErr "invalid syntax (<string>, line 1)")

/-- Evaluate a parsed host expression.  Operands evaluate left to right;
a call expression evaluates its callee and argument and then raises
`TypeError` (no reachable value is callable). -/
def evalPy : PyExpr → Except PyExc PyVal
  | .num n => .ok (.int n)
  | .fnum q => .ok (.float q)
  | .etup => .ok .tup
  | .neg e => do pyNeg (← evalPy e)
  | .pos e => do pyPos (← evalPy e)
  | .add a b => do pyAdd (← evalPy a) (← evalPy b)
  | .sub a b => do pySub (← evalPy a) (← evalPy b)
  | .mul a b => do pyMul (← evalPy a) (← evalPy b)
  | .div a b => do pyDiv (← evalPy a) (← evalPy b)
  | .fdiv a b => do pyFloorDiv (← evalPy a) (← evalPy b)
  | .pow a b => do pyPow (← evalPy a) (← evalPy b)
  | .call0 f => do
    let v ← evalPy f
    .error (.typeErr ("'" ++ v.typeName ++ "' object is not callable"))
  | .call1 f a => do
    let v ← evalPy f
    let _ ← evalPy a
    .error (.typeErr ("'" ++ v.typeName ++ "' object is not callable"))

/-- The host `eval` call on a character string of the reachable
fragment: tokenize, parse, evaluate. -/
def pyEvalChars (l : List Char) : Except PyExc PyVal := do
  evalPy (← parseToplevel (← tokenize l))

/-- Parse (without evaluating) a character string of the reachable
fragment. -/
def pyParseChars (l : List Char) : Except PyExc PyExpr := do
  parseToplevel (← tokenize l)

/-- `expression.replace(" ", "")`: remove every space character
(U+0020) — and only spaces, not other whitespace. -/
def stripSpaces (l : List Char) : List Char :=
  l.filter (fun c => decide (c ≠ ' '))

/-- The character whitelist of `calculate_expression`. -/
def allowedChars : List Char := "0123456789+-*/.()^".data

/-- `expression.replace("^", "**")`. -/
def caretTrans (l : List Char) : List Char :=
  l.flatMap (fun c => if c = '^' then ['*', '*'] else [c])

/-- The body of `calculate_expression` after whitespace removal:
character validation, caret translation, delegation to the host `eval`,
and exception translation (`ZeroDivisionError` to
`ValueError("Division by zero")`, any other exception `e` to
`ValueError("Invalid expression: " + str(e))`). -/
def calcCore (l : List Char) : Except PyExc PyVal :=
  match l.all (fun c => decide (c ∈ allowedChars)) with
  | false => .error (.valErr "Invalid characters in expression")
  | true =>
    match pyEvalChars (caretTrans l) with
    | .ok v => .ok v
    | .error (.zdivErr _) => .error (.valErr "Division by zero")
    | .error e => .error (.valErr ("Invalid expression: " ++ e.msg))

/-- `calculate_expression` from `todo/utils.py`. -/
def calculate_expression (s : String) : Except PyExc PyVal :=
  calcCore (stripSpaces s.data)

/-- Host `a < 0` comparison, as used by the `square_root` guard: defined
on numbers; ordering a complex number or a tuple against `0` raises
`TypeError`; the untracked irrational values are positive. -/
def pyLt0 : PyVal → Except PyExc Bool
  | .int n => .ok (n < 0)
  | .float q => .ok (q < 0)
  | .irr => .ok false
  | .cplx => .error (.typeErr "'<' not supported between instances of 'complex' and 'int'")
  | .tup => .error (.typeErr "'<' not supported between instances of 'tuple' and 'int'")

namespace Calculator

/-- `Calculator.add`: `return a + b`. -/
def add (a b : PyVal) : Except PyExc PyVal := pyAdd a b

/-- `Calculator.subtract`: `return a - b`. -/
def subtract (a b : PyVal) : Except PyExc PyVal := pySub a b

/-- `Calculator.multiply`: `return a * b`. -/
def multiply (a b : PyVal) : Except PyExc PyVal := pyMul a b

/-- `Calculator.divide`: `raise ValueError("Cannot divide by zero")`
when `b == 0`, else `return a / b`. -/
def divide (a b : PyVal) : Except PyExc PyVal :=
  if pyEq0 b then .error (.valErr "Cannot divide by zero") else pyDiv a b

/-- `Calculator.power`: `return a ** b`. -/
def power (a b : PyVal) : Except PyExc PyVal := pyPow a b

/-- `Calculator.modulo`: `raise ValueError("Cannot perform modulo with
zero")` when `b == 0`, else `return a % b`. -/
def modulo (a b : PyVal) : Except PyExc PyVal :=
  if pyEq0 b then .error (.valErr "Cannot perform modulo with zero") else pyMod a b

/-- `Calculator.square_root`: `raise ValueError("Cannot calculate square
root of negative number")` when `a < 0`, else `return a ** 0.5`. -/
def square_root (a : PyVal) : Except PyExc PyVal := do
  if (← pyLt0 a) then .error (.valErr "Cannot calculate square root of negative number")
  else pyPow a (.float (mkRat 1 2))

end Calculator

/-- The decimal digit character for `d % 10`. -/
def digitChar (d : ℕ) : Char := Char.ofNat (48 + d % 10)

/-- Fuelled big-endian decimal digit list of a natural number (fuel
`n + 1` always suffices). -/
def natCharsAux : ℕ → ℕ → List Char
  | 0, _ => []
  | f + 1, n => if n < 10 then [digitChar n] else natCharsAux f (n / 10) ++ [digitChar (n % 10)]

/-- Decimal digit list of a natural number (`0` renders as `"0"`). -/
def natChars (n : ℕ) : List Char := natCharsAux (n + 1) n

/-- Host `str(int(x))`: optional minus sign followed by decimal digits. -/
def intToStr (m : ℤ) : String := ⟨(if m < 0 then ['-'] else []) ++ natChars m.natAbs⟩

/-- Round a rational to the nearest integer, ties to even — the rounding
of the host's fixed-point float formatting. -/
def rhe (x : ℚ) : ℤ :=
  if qsub x (x.floor : ℚ) < mkRat 1 2 then x.floor
  else if mkRat 1 2 < qsub x (x.floor : ℚ) then x.floor + 1
  else if x.floor % 2 = 0 then x.floor else x.floor + 1

/-- Left-pad a digit list with `'0'` to length `dp`. -/
def padZeros (dp : ℕ) (l : List Char) : List Char :=
  List.replicate (dp - l.length) '0' ++ l

/-- The `dp` digits after the decimal point for scaled magnitude `m`. -/
def fracChars (m : ℕ) (dp : ℕ) : List Char :=
  padZeros dp (natChars (m % 10 ^ dp))

/-- The sign prefix of fixed-point formatting: the host prints `-` for a
negative value even when it rounds to zero (`"%.2f" % -0.004 = "-0.00"`). -/
def fsign (q : ℚ) : List Char := if q < 0 then ['-'] else []

/-- Host `f"{q:.{dp}f}"` on an exact rational: scale by `10 ^ dp`, round
half-to-even, and print sign, integer part, and (for `dp > 0`) exactly
`dp` fraction digits. -/
def fixedFormat (q : ℚ) (dp : ℕ) : String :=
  if dp = 0 then ⟨fsign q ++ natChars (rhe (qmul q (qpowN 10 dp))).natAbs⟩
  else
    ⟨fsign q ++ natChars ((rhe (qmul q (qpowN 10 dp))).natAbs / 10 ^ dp) ++
      '.' :: fracChars (rhe (qmul q (qpowN 10 dp))).natAbs dp⟩

/-- The numeric arguments of `format_calculation_result`: a host `int`
or a host `float` (exact-rational model).  The claims about the
formatter range over numbers only. -/
inductive FmtNum where
  | int (n : ℤ)
  | float (q : ℚ)
deriving DecidableEq, Repr

/-- `format_calculation_result` from `todo/utils.py`:
`str(int(result))` when `isinstance(result, int)` or
`result.is_integer()` (for the exact-rational model of a float,
`is_integer` is `den = 1`), else `f"{result:.{decimal_places}f}"`.
The `decimal_places` parameter defaults to `2` in the source; the claims
restrict it to non-negative integers, modelled as `ℕ`. -/
def format_calculation_result : FmtNum → ℕ → String
  | .int n, _ => intToStr n
  | .float q, dp => if q.den = 1 then intToStr q.num else fixedFormat q dp

/-- Expressions composed only of numeric literals and the four binary
operators `+ - * /` (the fragment of the round-trip claim). -/
inductive SimpleExpr where
  | litI (n : ℤ)
  | litF (q : ℚ)
  | add (a b : SimpleExpr)
  | sub (a b : SimpleExpr)
  | mul (a b : SimpleExpr)
  | div (a b : SimpleExpr)
deriving DecidableEq, Repr

/-- Render a `SimpleExpr` literal into the host expression syntax (a
negative literal becomes unary minus over a nonnegative literal). -/
def toPy : SimpleExpr → PyExpr
  | .litI n => if n < 0 then .neg (.num (-n).toNat) else .num n.toNat
  | .litF q => if q < 0 then .neg (.fnum (-q)) else .fnum q
  | .add a b => .add (toPy a) (toPy b)
  | .sub a b => .sub (toPy a) (toPy b)
  | .mul a b => .mul (toPy a) (toPy b)
  | .div a b => .div (toPy a) (toPy b)

/-- Evaluate a `SimpleExpr` the way `calculate_expression` evaluates it:
through the delegated host evaluator. -/
def evalE (e : SimpleExpr) : Except PyExc PyVal := evalPy (toPy e)

/-- Evaluate a `SimpleExpr` by direct application of the corresponding
`Calculator` operations on the same operands. -/
def calcE : SimpleExpr → Except PyExc PyVal
  | .litI n => .ok (.int n)
  | .litF q => .ok (.float q)
  | .add a b => do Calculator.add (← calcE a) (← calcE b)
  | .sub a b => do Calculator.subtract (← calcE a) (← calcE b)
  | .mul a b => do Calculator.multiply (← calcE a) (← calcE b)
  | .div a b => do Calculator.divide (← calcE a) (← calcE b)

/-!  Helper lemmas. -/

/-- The ASCII whitespace characters of the host's `str.isspace`. -/
def wsChars : List Char := [' ', '\t', '\n', '\r', '\x0b', '\x0c']

/-- An InvalidExpression-style failure of `calculate_expression`: a
`ValueError` whose message is the bad-character message or carries the
`"Invalid expression: "` prefix. -/
def FailsInvalid (s : String) : Prop :=
  ∃ m, calculate_expression s = .error (.valErr m) ∧
    (m = "Invalid characters in expression" ∨ ∃ t, m = "Invalid expression: " ++ t)

theorem stripSpaces_mem {l : List Char} {c : Char} (h : c ∈ stripSpaces l) :
    c ∈ l ∧ c ≠ ' ' := by
  unfold stripSpaces at h
  rw [List.mem_filter] at h
  exact ⟨h.1, of_decide_eq_true h.2⟩

theorem calcCore_badchar {l : List Char} {c : Char} (hc : c ∈ l)
    (hbad : c ∉ allowedChars) :
    calcCore l = .error (.valErr "Invalid characters in expression") := by
  have hall : l.all (fun c => decide (c ∈ allowedChars)) = false := by
    cases hall : l.all (fun c => decide (c ∈ allowedChars)) with
    | false => rfl
    | true =>
      have h2 := List.all_eq_true.mp hall c hc
      exact absurd (of_decide_eq_true h2) hbad
  unfold calcCore
  rw [hall]

theorem calcCore_synErr {l : List Char} {m : String}
    (hall : l.all (fun c => decide (c ∈ allowedChars)) = true)
    (he : pyEvalChars (caretTrans l) = .error (.synErr m)) :
    calcCore l = .error (.valErr ("Invalid expression: " ++ m)) := by
  unfold calcCore
  rw [hall, he]
  rfl

theorem calcCore_typeErr {l : List Char} {m : String}
    (hall : l.all (fun c => decide (c ∈ allowedChars)) = true)
    (he : pyEvalChars (caretTrans l) = .error (.typeErr m)) :
    calcCore l = .error (.valErr ("Invalid expression: " ++ m)) := by
  unfold calcCore
  rw [hall, he]
  rfl

theorem calcCore_zdivErr {l : List Char} {m : String}
    (hall : l.all (fun c => decide (c ∈ allowedChars)) = true)
    (he : pyEvalChars (caretTrans l) = .error (.zdivErr m)) :
    calcCore l = .error (.valErr "Division by zero") := by
  unfold calcCore
  rw [hall, he]

theorem invalid_msg_ne_div (t : String) :
    "Invalid expression: " ++ t ≠ "Division by zero" := by
  intro h
  have h2 := congrArg (fun s : String => s.data.head?) h
  have h3 : (some 'I' : Option Char) = some 'D' := h2
  exact absurd h3 (by decide)

theorem invalid_msg_ne_chars (t : String) :
    "Invalid expression: " ++ t ≠ "Invalid characters in expression" := by
  intro h
  have h2 := congrArg (fun s : String => (s.data.drop 8).head?) h
  have h3 : (some 'e' : Option Char) = some 'c' := h2
  exact absurd h3 (by decide)

/-- Every error of `calculate_expression` is a `ValueError` of one of
the three message families. -/
theorem calcCore_err_shape {l : List Char} {e : PyExc}
    (h : calcCore l = .error e) :
    ∃ m, e = .valErr m ∧
      (m = "Invalid characters in expression" ∨ m = "Division by zero" ∨
        ∃ t, m = "Invalid expression: " ++ t) := by
  unfold calcCore at h
  cases hall : l.all (fun c => decide (c ∈ allowedChars)) with
  | false =>
    rw [hall] at h
    exact ⟨_, (Except.error.inj h).symm ▸ rfl, Or.inl rfl⟩
  | true =>
    rw [hall] at h
    cases he : pyEvalChars (caretTrans l) with
    | ok v => rw [he] at h; cases h
    | error pe =>
      rw [he] at h
      cases pe with
      | valErr m =>
        exact ⟨_, ((Except.error.inj h).symm ▸ rfl), Or.inr (Or.inr ⟨m, rfl⟩)⟩
      | zdivErr m =>
        exact ⟨_, ((Except.error.inj h).symm ▸ rfl), Or.inr (Or.inl rfl)⟩
      | synErr m =>
        exact ⟨_, ((Except.error.inj h).symm ▸ rfl), Or.inr (Or.inr ⟨m, rfl⟩)⟩
      | typeErr m =>
        exact ⟨_, ((Except.error.inj h).symm ▸ rfl), Or.inr (Or.inr ⟨m, rfl⟩)⟩

/-- The ten decimal digit characters. -/
def decDigits : List Char := ['0', '1', '2', '3', '4', '5', '6', '7', '8', '9']

theorem digitChar_mem (d : ℕ) : digitChar d ∈ decDigits := by
  unfold digitChar
  have h : d % 10 < 10 := Nat.mod_lt _ (by norm_num)
  revert h
  generalize d % 10 = k
  intro h
  interval_cases k <;> decide

theorem natCharsAux_digits : ∀ (f n : ℕ), ∀ c ∈ natCharsAux f n, c ∈ decDigits := by
  intro f
  induction f with
  | zero => intro n c hc; simp [natCharsAux] at hc
  | succ f ih =>
    intro n c hc
    rw [natCharsAux] at hc
    split at hc
    · rw [List.mem_singleton] at hc
      rw [hc]
      exact digitChar_mem n
    · rcases List.mem_append.mp hc with h | h
      · exact ih _ _ h
      · rw [List.mem_singleton] at h
        rw [h]
        exact digitChar_mem _

theorem natCharsAux_len : ∀ (f n k : ℕ), 1 ≤ k → n < 10 ^ k →
    (natCharsAux f n).length ≤ k := by
  intro f
  induction f with
  | zero => intro n k h1 _; simp [natCharsAux]
  | succ f ih =>
    intro n k h1 h2
    rw [natCharsAux]
    split
    · simpa using h1
    · next h =>
      rw [List.length_append]
      have hk2 : 2 ≤ k := by
        rcases Nat.lt_or_ge k 2 with hk | hk
        · exfalso
          have hk1 : k = 1 := by omega
          rw [hk1, pow_one] at h2
          omega
        · exact hk
      have hdiv : n / 10 < 10 ^ (k - 1) := by
        have hp : 10 ^ k = 10 ^ (k - 1) * 10 := by
          rw [← pow_succ]
          congr 1
          omega
        rw [hp] at h2
        exact (Nat.div_lt_iff_lt_mul (by norm_num)).mpr h2
      have := ih (n / 10) (k - 1) (by omega) hdiv
      simp only [List.length_singleton]
      omega

theorem natChars_digits (n : ℕ) : ∀ c ∈ natChars n, c ∈ decDigits :=
  natCharsAux_digits _ _

theorem natChars_len {n k : ℕ} (h1 : 1 ≤ k) (h2 : n < 10 ^ k) :
    (natChars n).length ≤ k :=
  natCharsAux_len _ _ _ h1 h2

theorem padZeros_len {dp : ℕ} {l : List Char} (h : l.length ≤ dp) :
    (padZeros dp l).length = dp := by
  unfold padZeros
  rw [List.length_append, List.length_replicate]
  omega

theorem padZeros_digits {dp : ℕ} {l : List Char} (hl : ∀ c ∈ l, c ∈ decDigits) :
    ∀ c ∈ padZeros dp l, c ∈ decDigits := by
  intro c hc
  rcases List.mem_append.mp hc with h | h
  · rw [List.eq_of_mem_replicate h]
    decide
  · exact hl c h

theorem fracChars_len (m : ℕ) {dp : ℕ} (h : 0 < dp) : (fracChars m dp).length = dp := by
  apply padZeros_len
  apply natChars_len (by omega)
  exact Nat.mod_lt _ (pow_pos (by norm_num) dp)

theorem fracChars_digits (m dp : ℕ) : ∀ c ∈ fracChars m dp, c ∈ decDigits :=
  padZeros_digits (natChars_digits _)

theorem intToStr_no_dot (m : ℤ) : '.' ∉ (intToStr m).data := by
  intro h
  rcases List.mem_append.mp h with h1 | h1
  · split at h1
    · rw [List.mem_singleton] at h1
      exact absurd h1 (by decide)
    · simp at h1
  · exact absurd (natChars_digits _ '.' h1) (by decide)

theorem intToStr_neg_head {m : ℤ} (h : m < 0) : (intToStr m).data.head? = some '-' := by
  unfold intToStr
  rw [if_pos h]
  rfl

theorem intToStr_no_dash {m : ℤ} (h : 0 ≤ m) : '-' ∉ (intToStr m).data := by
  intro hc
  have hc2 : '-' ∈ (if m < 0 then ['-'] else []) ++ natChars m.natAbs := hc
  rw [if_neg (by omega)] at hc2
  rw [List.nil_append] at hc2
  exact absurd (natChars_digits _ '-' hc2) (by decide)

/-!  Real-number arithmetic lemmas for the round-trip claim. -/

theorem pyAdd_real {a b : PyVal} (ha : a.realNum = true) (hb : b.realNum = true) :
    ∃ w, pyAdd a b = .ok w ∧ w.realNum = true := by
  cases a <;> cases b <;> first
    | exact ⟨_, rfl, rfl⟩
    | exact absurd ha (by decide)
    | exact absurd hb (by decide)

theorem pySub_real {a b : PyVal} (ha : a.realNum = true) (hb : b.realNum = true) :
    ∃ w, pySub a b = .ok w ∧ w.realNum = true := by
  cases a <;> cases b <;> first
    | exact ⟨_, rfl, rfl⟩
    | exact absurd ha (by decide)
    | exact absurd hb (by decide)

theorem pyMul_real {a b : PyVal} (ha : a.realNum = true) (hb : b.realNum = true) :
    ∃ w, pyMul a b = .ok w ∧ w.realNum = true := by
  cases a <;> cases b <;> first
    | exact ⟨_, rfl, rfl⟩
    | exact absurd ha (by decide)
    | exact absurd hb (by decide)

theorem pyDiv_zero {a b : PyVal} (ha : a.realNum = true) (hb : b.realNum = true)
    (hz : pyEq0 b = true) :
    pyDiv a b = .error (.zdivErr "division by zero") := by
  cases a <;> cases b <;> first
    | exact absurd ha (by decide)
    | exact absurd hb (by decide)
    | (simp [pyDiv, hz])

theorem pyDiv_real {a b : PyVal} (ha : a.realNum = true) (hb : b.realNum = true)
    (hz : pyEq0 b = false) :
    ∃ w, pyDiv a b = .ok w ∧ w.realNum = true := by
  cases a with
  | int x =>
    cases b with
    | int y => exact ⟨.float (Rat.divInt x y), by simp [pyDiv, hz], rfl⟩
    | float y => exact ⟨.float (qdiv (x : ℚ) y), by simp [pyDiv, hz], rfl⟩
    | irr => exact absurd hb (by decide)
    | cplx => exact absurd hb (by decide)
    | tup => exact absurd hb (by decide)
  | float x =>
    cases b with
    | int y => exact ⟨.float (qdiv x (y : ℚ)), by simp [pyDiv, hz], rfl⟩
    | float y => exact ⟨.float (qdiv x y), by simp [pyDiv, hz], rfl⟩
    | irr => exact absurd hb (by decide)
    | cplx => exact absurd hb (by decide)
    | tup => exact absurd hb (by decide)
  | irr => exact absurd ha (by decide)
  | cplx => exact absurd ha (by decide)
  | tup => exact absurd ha (by decide)

theorem divide_zero {a b : PyVal} (hz : pyEq0 b = true) :
    Calculator.divide a b = .error (.valErr "Cannot divide by zero") := by
  simp [Calculator.divide, hz]

theorem divide_nonzero {a b : PyVal} (hz : pyEq0 b = false) :
    Calculator.divide a b = pyDiv a b := by
  simp [Calculator.divide, hz]

theorem modulo_zero {a b : PyVal} (hz : pyEq0 b = true) :
    Calculator.modulo a b = .error (.valErr "Cannot perform modulo with zero") := by
  simp [Calculator.modulo, hz]

theorem modulo_nonzero {a b : PyVal} (hz : pyEq0 b = false) :
    Calculator.modulo a b = pyMod a b := by
  simp [Calculator.modulo, hz]

theorem evalE_litI (n : ℤ) : evalE (.litI n) = .ok (.int n) := by
  unfold evalE toPy
  split
  · next h =>
    show Except.ok (PyVal.int (-((-n).toNat : ℤ))) = Except.ok (PyVal.int n)
    rw [Int.toNat_of_nonneg (by omega), neg_neg]
  · next h =>
    show Except.ok (PyVal.int ((n.toNat : ℤ))) = Except.ok (PyVal.int n)
    rw [Int.toNat_of_nonneg (by omega)]

theorem evalE_litF (q : ℚ) : evalE (.litF q) = .ok (.float q) := by
  unfold evalE toPy
  split
  · show Except.ok (PyVal.float (-(-q))) = Except.ok (PyVal.float q)
    rw [neg_neg]
  · rfl

/-- Key lemma of the round-trip claim: on `+ - * /` expressions the
delegated evaluator and the `Calculator` pipeline either produce the
same number or both fail. -/
theorem agreeAux (e : SimpleExpr) :
    (∃ v, v.realNum = true ∧ evalE e = .ok v ∧ calcE e = .ok v) ∨
    ((∃ er, evalE e = .error er) ∧ (∃ er, calcE e = .error er)) := by
  induction e with
  | litI n => exact Or.inl ⟨.int n, rfl, evalE_litI n, rfl⟩
  | litF q => exact Or.inl ⟨.float q, rfl, evalE_litF q, rfl⟩
  | add a b iha ihb =>
    have hev : evalE (SimpleExpr.add a b) =
        (evalE a).bind (fun va => (evalE b).bind (fun vb => pyAdd va vb)) := rfl
    have hcv : calcE (SimpleExpr.add a b) =
        (calcE a).bind (fun va => (calcE b).bind (fun vb => Calculator.add va vb)) := rfl
    rcases iha with ⟨va, hva, hea, hca⟩ | ⟨⟨ea, hea⟩, ⟨ca, hca⟩⟩
    · rcases ihb with ⟨vb, hvb, heb, hcb⟩ | ⟨⟨eb, heb⟩, ⟨cb, hcb⟩⟩
      · obtain ⟨w, hw, hwr⟩ := pyAdd_real hva hvb
        refine Or.inl ⟨w, hwr, ?_, ?_⟩
        · rw [hev, hea, heb]
          exact hw
        · rw [hcv, hca, hcb]
          exact hw
      · refine Or.inr ⟨⟨eb, ?_⟩, ⟨cb, ?_⟩⟩
        · rw [hev, hea, heb]
          rfl
        · rw [hcv, hca, hcb]
          rfl
    · refine Or.inr ⟨⟨ea, ?_⟩, ⟨ca, ?_⟩⟩
      · rw [hev, hea]
        rfl
      · rw [hcv, hca]
        rfl
  | sub a b iha ihb =>
    have hev : evalE (SimpleExpr.sub a b) =
        (evalE a).bind (fun va => (evalE b).bind (fun vb => pySub va vb)) := rfl
    have hcv : calcE (SimpleExpr.sub a b) =
        (calcE a).bind (fun va => (calcE b).bind (fun vb => Calculator.subtract va vb)) := rfl
    rcases iha with ⟨va, hva, hea, hca⟩ | ⟨⟨ea, hea⟩, ⟨ca, hca⟩⟩
    · rcases ihb with ⟨vb, hvb, heb, hcb⟩ | ⟨⟨eb, heb⟩, ⟨cb, hcb⟩⟩
      · obtain ⟨w, hw, hwr⟩ := pySub_real hva hvb
        refine Or.inl ⟨w, hwr, ?_, ?_⟩
        · rw [hev, hea, heb]
          exact hw
        · rw [hcv, hca, hcb]
          exact hw
      · refine Or.inr ⟨⟨eb, ?_⟩, ⟨cb, ?_⟩⟩
        · rw [hev, hea, heb]
          rfl
        · rw [hcv, hca, hcb]
          rfl
    · refine Or.inr ⟨⟨ea, ?_⟩, ⟨ca, ?_⟩⟩
      · rw [hev, hea]
        rfl
      · rw [hcv, hca]
        rfl
  | mul a b iha ihb =>
    have hev : evalE (SimpleExpr.mul a b) =
        (evalE a).bind (fun va => (evalE b).bind (fun vb => pyMul va vb)) := rfl
    have hcv : calcE (SimpleExpr.mul a b) =
        (calcE a).bind (fun va => (calcE b).bind (fun vb => Calculator.multiply va vb)) := rfl
    rcases iha with ⟨va, hva, hea, hca⟩ | ⟨⟨ea, hea⟩, ⟨ca, hca⟩⟩
    · rcases ihb with ⟨vb, hvb, heb, hcb⟩ | ⟨⟨eb, heb⟩, ⟨cb, hcb⟩⟩
      · obtain ⟨w, hw, hwr⟩ := pyMul_real hva hvb
        refine Or.inl ⟨w, hwr, ?_, ?_⟩
        · rw [hev, hea, heb]
          exact hw
        · rw [hcv, hca, hcb]
          exact hw
      · refine Or.inr ⟨⟨eb, ?_⟩, ⟨cb, ?_⟩⟩
        · rw [hev, hea, heb]
          rfl
        · rw [hcv, hca, hcb]
          rfl
    · refine Or.inr ⟨⟨ea, ?_⟩, ⟨ca, ?_⟩⟩
      · rw [hev, hea]
        rfl
      · rw [hcv, hca]
        rfl
  | div a b iha ihb =>
    have hev : evalE (SimpleExpr.div a b) =
        (evalE a).bind (fun va => (evalE b).bind (fun vb => pyDiv va vb)) := rfl
    have hcv : calcE (SimpleExpr.div a b) =
        (calcE a).bind (fun va => (calcE b).bind (fun vb => Calculator.divide va vb)) := rfl
    rcases iha with ⟨va, hva, hea, hca⟩ | ⟨⟨ea, hea⟩, ⟨ca, hca⟩⟩
    · rcases ihb with ⟨vb, hvb, heb, hcb⟩ | ⟨⟨eb, heb⟩, ⟨cb, hcb⟩⟩
      · cases hz : pyEq0 vb with
        | true =>
          refine Or.inr ⟨⟨.zdivErr "division by zero", ?_⟩,
            ⟨.valErr "Cannot divide by zero", ?_⟩⟩
          · rw [hev, hea, heb]
            exact pyDiv_zero hva hvb hz
          · rw [hcv, hca, hcb]
            exact divide_zero hz
        | false =>
          obtain ⟨w, hw, hwr⟩ := pyDiv_real hva hvb hz
          refine Or.inl ⟨w, hwr, ?_, ?_⟩
          · rw [hev, hea, heb]
            exact hw
          · rw [hcv, hca, hcb]
            exact (divide_nonzero hz).trans hw
      · refine Or.inr ⟨⟨eb, ?_⟩, ⟨cb, ?_⟩⟩
        · rw [hev, hea, heb]
          rfl
        · rw [hcv, hca, hcb]
          rfl
    · refine Or.inr ⟨⟨ea, ?_⟩, ⟨ca, ?_⟩⟩
      · rw [hev, hea]
        rfl
      · rw [hcv, hca]
        rfl

theorem pyMod_real {a b : PyVal} (ha : a.realNum = true) (hb : b.realNum = true)
    (hz : pyEq0 b = false) : ∃ w, pyMod a b = .ok w := by
  cases a with
  | int x =>
    cases b with
    | int y => exact ⟨.int (Int.fmod x y), by simp [pyMod, hz]⟩
    | float y =>
      exact ⟨.float (qsub (x : ℚ) (qmul y ((qdiv (x : ℚ) y).floor : ℤ))), by simp [pyMod, hz]⟩
    | irr => exact absurd hb (by decide)
    | cplx => exact absurd hb (by decide)
    | tup => exact absurd hb (by decide)
  | float x =>
    cases b with
    | int y =>
      exact ⟨.float (qsub x (qmul (y : ℚ) ((qdiv x (y : ℚ)).floor : ℤ))), by simp [pyMod, hz]⟩
    | float y =>
      exact ⟨.float (qsub x (qmul y ((qdiv x y).floor : ℤ))), by simp [pyMod, hz]⟩
    | irr => exact absurd hb (by decide)
    | cplx => exact absurd hb (by decide)
    | tup => exact absurd hb (by decide)
  | irr => exact absurd ha (by decide)
  | cplx => exact absurd ha (by decide)
  | tup => exact absurd ha (by decide)

theorem sqrt_neg {a : PyVal} (h : pyLt0 a = .ok true) :
    Calculator.square_root a = .error (.valErr "Cannot calculate square root of negative number") := by
  unfold Calculator.square_root
  rw [h]
  rfl

theorem sqrt_nonneg {a : PyVal} (h : pyLt0 a = .ok false) :
    Calculator.square_root a = pyPow a (.float (mkRat 1 2)) := by
  unfold Calculator.square_root
  rw [h]
  rfl

theorem pyLt0_real_cases {a : PyVal} (ha : a.realNum = true) :
    pyLt0 a = .ok true ∨ pyLt0 a = .ok false := by
  cases a with
  | int n =>
    by_cases h : n < 0
    · exact Or.inl (by simp [pyLt0, h])
    · exact Or.inr (by simp [pyLt0, h])
  | float q =>
    by_cases h : q < 0
    · exact Or.inl (by simp [pyLt0, h])
    · exact Or.inr (by simp [pyLt0, h])
  | irr => exact absurd ha (by decide)
  | cplx => exact absurd ha (by decide)
  | tup => exact absurd ha (by decide)

theorem pyPow_half_real {a : PyVal} (ha : a.realNum = true)
    (h : pyLt0 a = .ok false) : ∃ w, pyPow a (.float (mkRat 1 2)) = .ok w := by
  cases a with
  | int n =>
    have hn : ¬ n < 0 := by simpa [pyLt0] using h
    by_cases h0 : n = 0
    · subst h0
      exact ⟨.float 0, rfl⟩
    · refine ⟨.irr, ?_⟩
      show realPow (n : ℚ) (mkRat 1 2) = .ok .irr
      unfold realPow
      rw [if_neg (by decide)]
      rw [if_neg (by exact_mod_cast hn)]
      rw [if_neg (by exact_mod_cast h0)]
  | float q =>
    have hq : ¬ q < 0 := by simpa [pyLt0] using h
    by_cases h0 : q = 0
    · subst h0
      exact ⟨.float 0, rfl⟩
    · refine ⟨.irr, ?_⟩
      show realPow q (mkRat 1 2) = .ok .irr
      unfold realPow
      rw [if_neg (by decide), if_neg hq, if_neg h0]
  | irr => exact absurd ha (by decide)
  | cplx => exact absurd ha (by decide)
  | tup => exact absurd ha (by decide)

/-!  Claim theorems. -/

/-- C1: the claim that the evaluator performs no function calls and does
not delegate to a general-purpose code interpreter fails on the code:
`calculate_expression` hands the validated string to the host `eval`,
whose grammar accepts the call expression `5(3)` (evaluation then
attempts the call and raises `TypeError`, surfaced as a `ValueError`
whose text is the stringified `TypeError`), and `calculate_expression
"()"` returns the host's empty tuple — a non-arithmetic value — rather
than failing.  This theorem evaluates the code at those inputs. -/
theorem claim_C1_eval_delegation :
    pyParseChars "5(3)".data = .ok (.call1 (.num 5) (.num 3)) ∧
    calculate_expression "5(3)" =
      .error (.valErr "Invalid expression: 'int' object is not callable") ∧
    calculate_expression "()" = .ok .tup :=
  ⟨rfl, rfl, rfl⟩

/-- C2: whenever the delegated evaluation of a validated expression
raises `ZeroDivisionError`, `calculate_expression` fails with exactly
the message `"Division by zero"`, which differs from every
InvalidExpression-style message; `evaluate("10 / 0")` and
`evaluate("5 / (3 - 3)")` fail that way; and `Calculator.divide a b`
fails with the DivisionByZero message exactly when `b == 0` and
otherwise returns the host quotient `a / b`. -/
theorem claim_C2_division_by_zero :
    (∀ s m : String,
        ((stripSpaces s.data).all (fun c => decide (c ∈ allowedChars))) = true →
        pyEvalChars (caretTrans (stripSpaces s.data)) = .error (.zdivErr m) →
        calculate_expression s = .error (.valErr "Division by zero")) ∧
    calculate_expression "10 / 0" = .error (.valErr "Division by zero") ∧
    calculate_expression "5 / (3 - 3)" = .error (.valErr "Division by zero") ∧
    ("Division by zero" ≠ "Invalid characters in expression" ∧
      ∀ t : String, "Invalid expression: " ++ t ≠ "Division by zero") ∧
    (∀ a b : PyVal, a.realNum = true → b.realNum = true →
      (pyEq0 b = true → Calculator.divide a b = .error (.valErr "Cannot divide by zero")) ∧
      (pyEq0 b = false → Calculator.divide a b = pyDiv a b ∧
        ∃ w, pyDiv a b = .ok w ∧ w.realNum = true)) := by
  refine ⟨?_, rfl, rfl, ⟨by decide, invalid_msg_ne_div⟩, ?_⟩
  · intro s m hall he
    exact calcCore_zdivErr hall he
  · intro a b ha hb
    refine ⟨fun hz => divide_zero hz, fun hz => ⟨divide_nonzero hz, pyDiv_real ha hb hz⟩⟩

/-- C2 witness: the division-by-zero clauses at concrete inputs. -/
theorem claim_C2_witness :
    calculate_expression "1/0" = .error (.valErr "Division by zero") ∧
    Calculator.divide (.int 10) (.int 0) = .error (.valErr "Cannot divide by zero") := by
  constructor
  · exact claim_C2_division_by_zero.1 "1/0" "division by zero" rfl rfl
  · exact (claim_C2_division_by_zero.2.2.2.2 (.int 10) (.int 0) rfl rfl).1 rfl

/-- C3 counterexample: the code strips only space characters (U+0020),
not all whitespace, so inserting a tab into the valid expression `2+3`
changes the result from `5` to an invalid-characters error — refuting
"inserting or removing any whitespace anywhere in the string does not
change the result". -/
theorem claim_C3_counterexample :
    calculate_expression "2+3" = .ok (.int 5) ∧
    calculate_expression "2\t+3" = .error (.valErr "Invalid characters in expression") :=
  ⟨rfl, rfl⟩

/-- C3 (amended): `calculate_expression` strips all space characters
(U+0020) from its input before validation, so inserting or removing
spaces anywhere never changes the result, and
`evaluate("2+3") = evaluate(" 2 + 3 ") = 5`; every other whitespace
character is outside the allowed set and is rejected. -/
theorem claim_C3_space_insensitivity :
    (∀ s t : String, stripSpaces s.data = stripSpaces t.data →
        calculate_expression s = calculate_expression t) ∧
    calculate_expression "2+3" = .ok (.int 5) ∧
    calculate_expression " 2 + 3 " = .ok (.int 5) ∧
    (∀ c : Char, c ∈ wsChars → c ≠ ' ' → c ∉ allowedChars) := by
  refine ⟨?_, rfl, rfl, ?_⟩
  · intro s t h
    unfold calculate_expression
    rw [h]
  · intro c hc hns
    simp only [wsChars, List.mem_cons, List.not_mem_nil, or_false] at hc
    rcases hc with rfl | rfl | rfl | rfl | rfl | rfl
    · exact absurd rfl hns
    all_goals decide

/-- C3 witness: space-insensitivity applied at a concrete pair. -/
theorem claim_C3_witness :
    calculate_expression " 2 + 3 " = calculate_expression "2+3" :=
  claim_C3_space_insensitivity.1 " 2 + 3 " "2+3" rfl

/-- C4: `calculate_expression` fails with an InvalidExpression-style
`ValueError` on every input that is empty or consists only of
whitespace, on every input whose whitespace-stripped form contains a
character outside the allowed set, and on every validated input the
delegated evaluator rejects with a `SyntaxError` (trailing operators,
unbalanced parentheses, …); in particular on `""`, `"   "`, `"2 +"`,
`"2 + abc"` and `"2 + $"`. -/
theorem claim_C4_invalid_expression_errors :
    (∀ s : String, s.data.all (fun c => decide (c ∈ wsChars)) = true → FailsInvalid s) ∧
    (∀ (s : String) (c : Char), c ∈ stripSpaces s.data → c ∉ allowedChars →
        FailsInvalid s) ∧
    (∀ s m : String,
        ((stripSpaces s.data).all (fun c => decide (c ∈ allowedChars))) = true →
        pyEvalChars (caretTrans (stripSpaces s.data)) = .error (.synErr m) →
        FailsInvalid s) ∧
    FailsInvalid "" ∧ FailsInvalid "   " ∧ FailsInvalid "2 +" ∧
    FailsInvalid "2 + abc" ∧ FailsInvalid "2 + $" := by
  have hws : ∀ s : String, s.data.all (fun c => decide (c ∈ wsChars)) = true →
      FailsInvalid s := by
    intro s hall
    cases hstrip : stripSpaces s.data with
    | nil =>
      refine ⟨"Invalid expression: invalid syntax (<string>, line 1)", ?_,
        Or.inr ⟨"invalid syntax (<string>, line 1)", rfl⟩⟩
      show calcCore (stripSpaces s.data) = _
      rw [hstrip]
      rfl
    | cons c rest =>
      have hc : c ∈ stripSpaces s.data := by
        rw [hstrip]
        exact List.mem_cons_self _ _
      obtain ⟨hmem, hnsp⟩ := stripSpaces_mem hc
      have hwsc : c ∈ wsChars := of_decide_eq_true (List.all_eq_true.mp hall c hmem)
      have hbad : c ∉ allowedChars := by
        simp only [wsChars, List.mem_cons, List.not_mem_nil, or_false] at hwsc
        rcases hwsc with rfl | rfl | rfl | rfl | rfl | rfl
        · exact absurd rfl hnsp
        all_goals decide
      exact ⟨_, calcCore_badchar hc hbad, Or.inl rfl⟩
  refine ⟨hws, ?_, ?_, hws "" rfl, hws "   " rfl,
    ⟨"Invalid expression: invalid syntax (<string>, line 1)", rfl,
      Or.inr ⟨"invalid syntax (<string>, line 1)", rfl⟩⟩,
    ⟨"Invalid characters in expression", rfl, Or.inl rfl⟩,
    ⟨"Invalid characters in expression", rfl, Or.inl rfl⟩⟩
  · intro s c hc hbad
    exact ⟨_, calcCore_badchar hc hbad, Or.inl rfl⟩
  · intro s m hall he
    exact ⟨_, calcCore_synErr hall he, Or.inr ⟨m, rfl⟩⟩

/-- C4 witness: the syntactic-failure clause applied to the unbalanced
input `"(2+3"`. -/
theorem claim_C4_witness : FailsInvalid "(2+3" :=
  claim_C4_invalid_expression_errors.2.2.1 "(2+3" "invalid syntax (<string>, line 1)" rfl rfl

/-- C5: the caret is translated to the host power operator and standard
precedence, associativity and grouping apply: `2^3 = 8`,
`(2 + 3) * 4 = 20`, `(10 + 5) / 3 = 5` (host true division returns the
float `5.0`, which compares equal to `5`), multiplication binds tighter
than addition, subtraction is left-associative, exponentiation is
right-associative and admits unary minus on its right. -/
theorem claim_C5_caret_and_precedence :
    calculate_expression "2^3" = .ok (.int 8) ∧
    calculate_expression "(2 + 3) * 4" = .ok (.int 20) ∧
    calculate_expression "(10 + 5) / 3" = .ok (.float 5) ∧
    caretTrans "2^3".data = "2**3".data ∧
    calculate_expression "2+3*4" = .ok (.int 14) ∧
    calculate_expression "2-3-4" = .ok (.int (-5)) ∧
    calculate_expression "2^3^2" = .ok (.int 512) ∧
    calculate_expression "2^-1" = .ok (.float (mkRat 1 2)) :=
  ⟨rfl, rfl, rfl, rfl, rfl, rfl, rfl, rfl⟩

/-- C6: a mathematically integral result formats as its plain integer
string for every precision — the integer branch precedes the
`decimalPlaces` branch — with no decimal point in the output and the
sign preserved: `format(10.0) = "10"`, `format(0) = format(0.0) = "0"`,
`format(-3) = "-3"`, `format(2.0, 1) = "2"`. -/
theorem claim_C6_integer_format :
    (∀ (n : ℤ) (dp : ℕ), format_calculation_result (.int n) dp = intToStr n) ∧
    (∀ (q : ℚ) (dp : ℕ), q.den = 1 →
        format_calculation_result (.float q) dp = intToStr q.num) ∧
    (∀ m : ℤ, '.' ∉ (intToStr m).data) ∧
    (∀ m : ℤ, m < 0 → (intToStr m).data.head? = some '-') ∧
    (∀ m : ℤ, 0 ≤ m → '-' ∉ (intToStr m).data) ∧
    format_calculation_result (.float 10) 2 = "10" ∧
    format_calculation_result (.int 0) 2 = "0" ∧
    format_calculation_result (.float 0) 2 = "0" ∧
    format_calculation_result (.int (-3)) 2 = "-3" ∧
    format_calculation_result (.float 2) 1 = "2" := by
  refine ⟨fun n dp => rfl, ?_, intToStr_no_dot, fun m h => intToStr_neg_head h,
    fun m h => intToStr_no_dash h, rfl, rfl, rfl, rfl, rfl⟩
  intro q dp h
  show (if q.den = 1 then intToStr q.num else fixedFormat q dp) = intToStr q.num
  rw [if_pos h]

/-- C6 witness: the float-integer clause applied at `7.0` with
precision `3`. -/
theorem claim_C6_witness :
    format_calculation_result (.float 7) 3 = intToStr (7 : ℚ).num :=
  claim_C6_integer_format.2.1 7 3 (by decide)

/-- C7: on expressions built from numeric literals and `+ - * /` alone,
the delegated evaluator and direct application of the corresponding
`Calculator` operations on the same operands succeed with exactly the
same numeric values (and fail together). -/
theorem claim_C7_round_trip_agreement :
    ∀ (e : SimpleExpr) (v : PyVal), evalE e = .ok v ↔ calcE e = .ok v := by
  intro e v
  rcases agreeAux e with ⟨w, _, he, hc⟩ | ⟨⟨ea, he⟩, ⟨ca, hc⟩⟩
  · rw [he, hc]
  · rw [he, hc]
    constructor <;> intro h <;> cases h

/-- C7 witness: agreement transported at a concrete expression. -/
theorem claim_C7_witness :
    calcE (.div (.litI 7) (.litI 2)) = .ok (.float (mkRat 7 2)) :=
  (claim_C7_round_trip_agreement (.div (.litI 7) (.litI 2)) (.float (mkRat 7 2))).mp rfl

/-- C8: a non-integral result is formatted by the fixed-point branch at
every precision, whose output carries exactly `decimalPlaces` digit
characters after the decimal point under the single rounding rule `rhe`
(round half to even, the host's float-formatting rounding):
`format(5.123) = "5.12"` (default precision 2) and
`format(5.123456, 4) = "5.1235"`. -/
theorem claim_C8_fixed_format :
    (∀ (q : ℚ) (dp : ℕ), q.den ≠ 1 →
        format_calculation_result (.float q) dp = fixedFormat q dp) ∧
    (∀ (q : ℚ) (dp : ℕ), 0 < dp →
        fixedFormat q dp =
          ⟨fsign q ++ natChars ((rhe (qmul q (qpowN 10 dp))).natAbs / 10 ^ dp) ++
            '.' :: fracChars (rhe (qmul q (qpowN 10 dp))).natAbs dp⟩ ∧
        (fracChars (rhe (qmul q (qpowN 10 dp))).natAbs dp).length = dp ∧
        (∀ c ∈ fracChars (rhe (qmul q (qpowN 10 dp))).natAbs dp, c ∈ decDigits)) ∧
    format_calculation_result (.float (mkRat 5123 1000)) 2 = "5.12" ∧
    format_calculation_result (.float (mkRat 5123456 1000000)) 4 = "5.1235" := by
  refine ⟨?_, ?_, rfl, rfl⟩
  · intro q dp h
    show (if q.den = 1 then intToStr q.num else fixedFormat q dp) = fixedFormat q dp
    rw [if_neg h]
  · intro q dp h
    refine ⟨?_, fracChars_len _ h, fracChars_digits _ _⟩
    unfold fixedFormat
    rw [if_neg (by omega)]

/-- C8 witness: the fixed-point clause applied at `5.123` with the
default precision `2`. -/
theorem claim_C8_witness :
    format_calculation_result (.float (mkRat 5123 1000)) 2 = fixedFormat (mkRat 5123 1000) 2 :=
  claim_C8_fixed_format.1 (mkRat 5123 1000) 2 (by decide)

/-- C9: `Calculator.modulo a b` fails with the ModuloByZero message
exactly when `b == 0` and returns the host remainder `a % b` otherwise;
`Calculator.square_root a` fails with the NegativeRadicand message
exactly when `a < 0` and returns `a ** 0.5` otherwise; in particular
`modulo(10, 0)` and `square_root(-1)` fail with those errors. -/
theorem claim_C9_modulo_sqrt :
    (∀ a b : PyVal, a.realNum = true → b.realNum = true →
      (pyEq0 b = true →
        Calculator.modulo a b = .error (.valErr "Cannot perform modulo with zero")) ∧
      (pyEq0 b = false → Calculator.modulo a b = pyMod a b ∧
        ∃ w, pyMod a b = .ok w)) ∧
    (∀ a : PyVal, a.realNum = true →
      (pyLt0 a = .ok true →
        Calculator.square_root a =
          .error (.valErr "Cannot calculate square root of negative number")) ∧
      (pyLt0 a = .ok false →
        Calculator.square_root a = pyPow a (.float (mkRat 1 2)) ∧
        ∃ w, pyPow a (.float (mkRat 1 2)) = .ok w)) ∧
    Calculator.modulo (.int 10) (.int 0) =
      .error (.valErr "Cannot perform modulo with zero") ∧
    Calculator.square_root (.int (-1)) =
      .error (.valErr "Cannot calculate square root of negative number") := by
  refine ⟨?_, ?_, rfl, rfl⟩
  · intro a b ha hb
    exact ⟨fun hz => modulo_zero hz,
      fun hz => ⟨modulo_nonzero hz, pyMod_real ha hb hz⟩⟩
  · intro a ha
    exact ⟨fun h => sqrt_neg h,
      fun h => ⟨sqrt_nonneg h, pyPow_half_real ha h⟩⟩

/-- C9 witness: the guard clauses at concrete inputs. -/
theorem claim_C9_witness :
    Calculator.modulo (.int 10) (.int 0) =
      .error (.valErr "Cannot perform modulo with zero") ∧
    Calculator.square_root (.int 4) = pyPow (.int 4) (.float (mkRat 1 2)) := by
  constructor
  · exact (claim_C9_modulo_sqrt.1 (.int 10) (.int 0) rfl rfl).1 rfl
  · exact ((claim_C9_modulo_sqrt.2.1 (.int 4) rfl).2 rfl).1

/-- C10: every failure of `calculate_expression` is a `ValueError`
(carrying one of the three evaluator message families), every failure
of the numeric `Calculator` operations is a `ValueError` with the
operation's fixed message, and the spec's four error kinds are told
apart only by those pairwise-distinct message strings — never by the
exception type. -/
theorem claim_C10_errors_are_value_errors :
    (∀ (s : String) (e : PyExc), calculate_expression s = .error e →
      ∃ m, e = .valErr m ∧
        (m = "Invalid characters in expression" ∨ m = "Division by zero" ∨
          ∃ t, m = "Invalid expression: " ++ t)) ∧
    (∀ a b : PyVal, a.realNum = true → b.realNum = true → ∀ e : PyExc,
        Calculator.divide a b = .error e → e = .valErr "Cannot divide by zero") ∧
    (∀ a b : PyVal, a.realNum = true → b.realNum = true → ∀ e : PyExc,
        Calculator.modulo a b = .error e →
          e = .valErr "Cannot perform modulo with zero") ∧
    (∀ a : PyVal, a.realNum = true → ∀ e : PyExc,
        Calculator.square_root a = .error e →
          e = .valErr "Cannot calculate square root of negative number") ∧
    ("Cannot divide by zero" ≠ "Cannot perform modulo with zero" ∧
      "Cannot divide by zero" ≠ "Cannot calculate square root of negative number" ∧
      "Cannot perform modulo with zero" ≠ "Cannot calculate square root of negative number" ∧
      "Division by zero" ≠ "Invalid characters in expression" ∧
      (∀ t : String, "Invalid expression: " ++ t ≠ "Division by zero") ∧
      (∀ t : String, "Invalid expression: " ++ t ≠ "Invalid characters in expression")) := by
  refine ⟨fun s e h => calcCore_err_shape h, ?_, ?_, ?_,
    by decide, by decide, by decide, by decide, invalid_msg_ne_div, invalid_msg_ne_chars⟩
  · intro a b ha hb e h
    cases hz : pyEq0 b with
    | true =>
      rw [divide_zero hz] at h
      exact (Except.error.inj h).symm
    | false =>
      obtain ⟨w, hw, _⟩ := pyDiv_real ha hb hz
      rw [divide_nonzero hz, hw] at h
      cases h
  · intro a b ha hb e h
    cases hz : pyEq0 b with
    | true =>
      rw [modulo_zero hz] at h
      exact (Except.error.inj h).symm
    | false =>
      obtain ⟨w, hw⟩ := pyMod_real ha hb hz
      rw [modulo_nonzero hz, hw] at h
      cases h
  · intro a ha e h
    rcases pyLt0_real_cases ha with hlt | hlt
    · rw [sqrt_neg hlt] at h
      exact (Except.error.inj h).symm
    · obtain ⟨w, hw⟩ := pyPow_half_real ha hlt
      rw [sqrt_nonneg hlt, hw] at h
      cases h

/-- C10 witness: the evaluator clause applied at a concrete bad input. -/
theorem claim_C10_witness :
    ∃ m, PyExc.valErr "Invalid characters in expression" = .valErr m ∧
      (m = "Invalid characters in expression" ∨ m = "Division by zero" ∨
        ∃ t, m = "Invalid expression: " ++ t) :=
  claim_C10_errors_are_value_errors.1 "2 + $"
    (.valErr "Invalid characters in expression") rfl
